import Mathlib

/-!
Verification development for the redact-data library: a shallow embedding
of the data model (src/data.rs), the cache-aside decorator
(src/storage.rs), the error taxonomy (src/storage/error.rs,
src/cache/error.rs) and the two backing-store adapters
(src/storage/mongodb.rs, src/storage/redact.rs), together with proofs of
the specified properties.
-/

/-- Alias for the builtin string type, usable inside namespaces where a
constructor named `String` shadows it. -/
abbrev RustString := String

/-- Alias for the builtin boolean type, usable inside namespaces where a
constructor named `Bool` shadows it. -/
abbrev RustBool := Bool

namespace RedactData

/-! ## DataPath (src/data.rs) -/

/-- Embeds `DataPath::validate_path` from src/data.rs.  The Rust code
short-circuits on the empty string, then extracts the first character via
`chars().next()` and the last character of the remaining iterator via
`.last()` (which is `none` exactly when the string has length 1), and
branches on whether those characters are `'.'`.  The `(none, _)` arms of
the Rust `match` are unreachable (the code panics there); after the
empty-string short circuit the list of characters is non-empty, so the
corresponding arm below is dead code. -/
def DataPath.validate_path (path : String) : String :=
  if path.isEmpty then "."
  else
    let first_char := path.data.head?
    let last_char := path.data.tail.getLast?
    match first_char, last_char with
    | some fc, some lc =>
      if fc ≠ '.' ∧ lc ≠ '.' then "." ++ path ++ "."
      else if fc = '.' ∧ lc = '.' then path
      else if fc ≠ '.' then "." ++ path
      else path ++ "."
    | some fc, none =>
      if fc = '.' then path else "." ++ path ++ "."
    | none, _ => "."

/-- `DataPath` wraps the validated path string (src/data.rs). -/
structure DataPath where
  path : String
  deriving DecidableEq

/-- `DataPath::new`: validates and wraps (src/data.rs). -/
def DataPath.new (path : String) : DataPath :=
  ⟨DataPath.validate_path path⟩

/-- `Display for DataPath` returns the stored string. -/
def DataPath.display (dp : DataPath) : String := dp.path

/-- The derived `Default` for `DataPath` wraps the empty string without
validation (Rust `#[derive(Default)]` fills each field with its own
default). -/
def DataPath.defaultPath : DataPath := ⟨""⟩

/-- Normalization as the specification words it, case by case: empty input
and "." map to "."; any other single character `c` maps to ".c."; for
length ≥ 2, keep when first and last are both periods, wrap when neither
is, append a period when only the first is, prepend when only the last is.
Used to compare `validate_path` against the spec. -/
def normalizeSpec (s : String) : String :=
  if s = "" then "."
  else if s = "." then "."
  else if s.length = 1 then "." ++ s ++ "."
  else
    let fc := s.data.head?
    let lc := s.data.getLast?
    if fc = some '.' ∧ lc = some '.' then s
    else if fc ≠ some '.' ∧ lc ≠ some '.' then "." ++ s ++ "."
    else if fc = some '.' then s ++ "."
    else "." ++ s

/-! ## Data model (src/data.rs) -/

/-- `DataType`: the scalar type tag carried by an encrypted value. -/
inductive DataType
  | Bool
  | U64
  | I64
  | F64
  | String
  deriving DecidableEq

/-- `Display for DataType` (src/data.rs): lowercase type names. -/
def DataType.display : DataType → RustString
  | .Bool => "bool"
  | .U64 => "u64"
  | .I64 => "i64"
  | .F64 => "f64"
  | .String => "string"

/-- `UnencryptedDataValue`: one of the five scalar variants.  The Rust
`u64`/`i64` are modelled as `Nat`/`Int` (no arithmetic is performed on
them in this library, so overflow never matters). -/
inductive UnencryptedDataValue
  | Bool (b : RustBool)
  | U64 (n : Nat)
  | I64 (n : Int)
  | F64 (f : Float)
  | String (s : RustString)

/-- `Display for UnencryptedDataValue`: the natural textual form of each
scalar. -/
def UnencryptedDataValue.display : UnencryptedDataValue → RustString
  | .Bool b => toString b
  | .U64 n => toString n
  | .I64 n => toString n
  | .F64 f => toString f
  | .String s => s

/-- `EncryptedDataValue` (src/data.rs): raw byte payload (`Vec<u8>`,
modelled as a list of byte values), the `DataType` tag, and the name of
the encrypting key. -/
structure EncryptedDataValue where
  value : List Nat
  datatype : DataType
  keyname : String

/-- `DataValue`: the encrypted/unencrypted tagged union. -/
inductive DataValue
  | Encrypted (e : EncryptedDataValue)
  | Unencrypted (u : UnencryptedDataValue)

/-- The derived `Default` for `DataValue` is `Unencrypted(Bool(false))`. -/
def DataValue.defaultValue : DataValue :=
  .Unencrypted (.Bool false)

/-! ### UTF-8 decoding

`Display for EncryptedDataValue` runs the payload bytes through
`String::from_utf8` and fails with `std::fmt::Error` when they are not
valid UTF-8.  `utf8Decode` is a strict UTF-8 decoder (the exact language
accepted by `String::from_utf8`: no overlong encodings, no surrogate
code points, nothing above U+10FFFF); `validUtf8` is the corresponding
boolean validator. -/

/-- A UTF-8 continuation byte: `0x80 ≤ b < 0xC0`. -/
def isUtf8Cont (b : Nat) : Bool := 0x80 ≤ b && b < 0xC0

/-- Number of continuation bytes demanded by a leading byte's class. -/
def utf8ContBytes (b1 : Nat) : Nat :=
  if b1 < 0x80 then 0 else if b1 < 0xE0 then 1 else if b1 < 0xF0 then 2 else 3

/-- Decodes one UTF-8 scalar value from leading byte `b1` and the bytes
after it, returning the code point, or `none` if the sequence is
ill-formed.  The ranges are those accepted by Rust's
`String::from_utf8`: leading bytes `0x80..0xC1` are rejected (stray
continuation bytes and overlong 2-byte forms), `0xE0`/`0xED` restrict
their second byte to exclude overlong 3-byte forms and the surrogate
range, `0xF0`/`0xF4` restrict theirs to exclude overlong 4-byte forms
and code points above U+10FFFF, and `0xF5..0xFF` are rejected. -/
def utf8StepCp (b1 : Nat) (rest : List Nat) : Option Nat :=
  if b1 < 0x80 then some b1
  else if b1 < 0xC2 then none
  else if b1 < 0xE0 then
    match rest with
    | b2 :: _ =>
      if isUtf8Cont b2 then some ((b1 - 0xC0) * 0x40 + (b2 - 0x80)) else none
    | [] => none
  else if b1 < 0xF0 then
    match rest with
    | b2 :: b3 :: _ =>
      if (if b1 = 0xE0 then 0xA0 else 0x80) ≤ b2
          && b2 < (if b1 = 0xED then 0xA0 else 0xC0)
          && isUtf8Cont b3 then
        some ((b1 - 0xE0) * 0x1000 + (b2 - 0x80) * 0x40 + (b3 - 0x80))
      else none
    | _ => none
  else if b1 < 0xF5 then
    match rest with
    | b2 :: b3 :: b4 :: _ =>
      if (if b1 = 0xF0 then 0x90 else 0x80) ≤ b2
          && b2 < (if b1 = 0xF4 then 0x90 else 0xC0)
          && isUtf8Cont b3 && isUtf8Cont b4 then
        some ((b1 - 0xF0) * 0x40000 + (b2 - 0x80) * 0x1000
          + (b3 - 0x80) * 0x40 + (b4 - 0x80))
      else none
    | _ => none
  else none

/-- Decoder driver: repeatedly decodes one scalar value and skips its
continuation bytes.  The `fuel` argument only bounds recursion depth;
each step consumes at least the leading byte, so fuel equal to the list
length (as supplied by `utf8Decode`) never runs out. -/
def utf8DecodeAux : Nat → List Nat → Option (List Char)
  | _, [] => some []
  | 0, _ :: _ => none
  | fuel + 1, b1 :: rest =>
    match utf8StepCp b1 rest with
    | some cp =>
      (utf8DecodeAux fuel (rest.drop (utf8ContBytes b1))).map
        (fun cs => Char.ofNat cp :: cs)
    | none => none

/-- Strict UTF-8 decoder over byte values; `none` exactly on input
rejected by `String::from_utf8`. -/
def utf8Decode (l : List Nat) : Option (List Char) := utf8DecodeAux l.length l

/-- Validator driver mirroring `utf8DecodeAux`. -/
def validUtf8Aux : Nat → List Nat → Bool
  | _, [] => true
  | 0, _ :: _ => false
  | fuel + 1, b1 :: rest =>
    match utf8StepCp b1 rest with
    | some _ => validUtf8Aux fuel (rest.drop (utf8ContBytes b1))
    | none => false

/-- Boolean UTF-8 validity — the check `String::from_utf8` performs. -/
def validUtf8 (l : List Nat) : Bool := validUtf8Aux l.length l

/-- `Display for EncryptedDataValue` (src/data.rs): renders
`encrypted(key: "<keyname>", type: "<type>", value: "<payload-as-text>")`,
failing (`std::fmt::Error`, modelled as `none`) when the payload is not
valid UTF-8. -/
def EncryptedDataValue.display (e : EncryptedDataValue) : Option String :=
  (utf8Decode e.value).map (fun cs =>
    "encrypted(key: \"" ++ e.keyname ++ "\", type: \"" ++ e.datatype.display
      ++ "\", value: \"" ++ String.mk cs ++ "\")")

/-- `Display for DataValue`: dispatches to the branch's rendering;
unencrypted rendering never fails. -/
def DataValue.display : DataValue → Option String
  | .Encrypted e => e.display
  | .Unencrypted u => some u.display

/-- `DataValueCollection` wraps a vector of `DataValue`s (src/data.rs). -/
structure DataValueCollection where
  vals : List DataValue

/-- The derived `Default` for `DataValueCollection` is the empty vector
(confirmed by the repository's own test `test_default_is_empty_vec`). -/
def DataValueCollection.defaultCollection : DataValueCollection := ⟨[]⟩

/-- `Display for DataValueCollection`: concatenates each value's
rendering in order via `try_for_each`, failing as soon as one value's
rendering fails. -/
def DataValueCollection.display (c : DataValueCollection) : Option String :=
  c.vals.foldlM (fun acc dv => dv.display.map (fun s => acc ++ s)) ""

/-- `Data` (src/data.rs): a validated path, a collection of values, and
the optional list of encrypting-key names. -/
structure Data where
  path : DataPath
  value : DataValueCollection
  encryptedby : Option (List String)

/-- `Data::new`: builds a `Data` with a singleton value collection,
validating the path. -/
def Data.new (path : String) (value : DataValue)
    (encryptedby : Option (List String)) : Data :=
  ⟨DataPath.new path, ⟨[value]⟩, encryptedby⟩

/-- `Data::path()`: the data's path rendered as a string. -/
def Data.pathString (d : Data) : String := d.path.display

/-- The derived `Default` for `Data`: default path, empty value
collection, `None` key list. -/
def Data.defaultData : Data :=
  ⟨DataPath.defaultPath, DataValueCollection.defaultCollection, none⟩

/-! ## Error taxonomy (src/cache/error.rs, src/storage/error.rs)

The boxed lower-level causes (`Box<dyn Error + Send + Sync>`) are opaque
displayable values; they are modelled as strings. -/

/-- `CacheError`: a failure while interacting with the cache. -/
inductive CacheError
  | InternalError (source : String)
  | NotFound
  deriving DecidableEq

/-- `StorageError`: a failure while interacting with the backing store. -/
inductive StorageError
  | InternalError (source : String)
  | NotFound
  deriving DecidableEq

/-- `DataStorerError` (src/storage/error.rs): the merged error type,
tagging every failure with its origin.  `From<CacheError>` wraps a cache
failure into the `CacheError` branch. -/
inductive DataStorerError
  | CacheError (source : RedactData.CacheError)
  | StorageError (source : RedactData.StorageError)
  deriving DecidableEq

/-! ## Cacher and Storer capabilities

`CachedDataStorer` is generic over a `DataStorer` and a `DataCacher`
(src/storage.rs).  The collaborators are modelled as oracles: records of
pure functions giving the outcome of each operation.  The `DataCacher`
trait declaration itself is not in the sources, but its exact shape is
fixed by its implementation `RedisDataCacher` (src/cache/redis.rs) and
by its uses in src/storage.rs: `set(key, Data) -> ()`,
`get(key) -> Data`, `exists(key) -> bool`, `expire(key, seconds) ->
bool`, all fallible with `CacheError`, plus
`get_default_key_expiration_seconds() -> usize`. -/

/-- A `DataCacher` collaborator, as an oracle of operation outcomes. -/
structure DataCacher where
  set : String → Data → Except CacheError Unit
  get : String → Except CacheError Data
  existsKey : String → Except CacheError Bool
  expire : String → Nat → Except CacheError Bool
  get_default_key_expiration_seconds : Nat

/-- A `DataStorer` collaborator, as an oracle of operation outcomes.
Per the trait (src/storage.rs), its operations return the merged
`DataStorerError` directly. -/
structure DataStorerOracle where
  get : String → Except DataStorerError Data
  create : Data → Except DataStorerError Bool

/-- One observable call to a collaborator, with its arguments.  Used to
record the exact sequence of collaborator calls an operation makes. -/
inductive CallEvent
  | cacherSet (key : String) (value : Data)
  | cacherGet (key : String)
  | cacherExists (key : String)
  | cacherExpire (key : String) (seconds : Nat)
  | storerGet (path : String)
  | storerCreate (value : Data)

/-- Whether an event is a `set` call on the cacher. -/
def CallEvent.isCacherSet : CallEvent → Bool
  | .cacherSet _ _ => true
  | _ => false

/-- Whether an event is a `get` call on the cacher. -/
def CallEvent.isCacherGet : CallEvent → Bool
  | .cacherGet _ => true
  | _ => false

/-- Whether an event is an `exists` call on the cacher. -/
def CallEvent.isCacherExists : CallEvent → Bool
  | .cacherExists _ => true
  | _ => false

/-- Whether an event is an `expire` call on the cacher. -/
def CallEvent.isCacherExpire : CallEvent → Bool
  | .cacherExpire _ _ => true
  | _ => false

/-- Whether an event is a `get` call on the backing storer. -/
def CallEvent.isStorerGet : CallEvent → Bool
  | .storerGet _ => true
  | _ => false

/-- Whether an event is a `create` call on the backing storer. -/
def CallEvent.isStorerCreate : CallEvent → Bool
  | .storerCreate _ => true
  | _ => false

/-- `CachedDataStorer` (src/storage.rs): one storer and one cacher. -/
structure CachedDataStorer where
  storer : DataStorerOracle
  cacher : DataCacher

/-- `CachedDataStorer::get` (src/storage.rs lines 61–78), with the
sequence of collaborator calls it performs recorded as a trace.  The
Rust `?` on `exists` and `expire` converts a `CacheError` through
`From<CacheError> for DataStorerError`; the explicit `map_err` on the
cache `get` does the same; the `?` on the storer's `get` propagates the
already-merged error unchanged; on a miss the fetched value is written
to the cache before being returned, surfacing a `set` failure. -/
def CachedDataStorer.get (c : CachedDataStorer) (path : String) :
    Except DataStorerError Data × List CallEvent :=
  match c.cacher.existsKey path with
  | .error e => (.error (.CacheError e), [.cacherExists path])
  | .ok cache_hit =>
    if cache_hit then
      let secs := c.cacher.get_default_key_expiration_seconds
      match c.cacher.expire path secs with
      | .error e =>
        (.error (.CacheError e), [.cacherExists path, .cacherExpire path secs])
      | .ok _ =>
        match c.cacher.get path with
        | .error e =>
          (.error (.CacheError e),
            [.cacherExists path, .cacherExpire path secs, .cacherGet path])
        | .ok d =>
          (.ok d, [.cacherExists path, .cacherExpire path secs, .cacherGet path])
    else
      match c.storer.get path with
      | .error e => (.error e, [.cacherExists path, .storerGet path])
      | .ok res =>
        match c.cacher.set path res with
        | .error e =>
          (.error (.CacheError e),
            [.cacherExists path, .storerGet path, .cacherSet path res])
        | .ok _ =>
          (.ok res, [.cacherExists path, .storerGet path, .cacherSet path res])

/-- `CachedDataStorer::create` (src/storage.rs lines 80–84), with its
call trace: store first; only on success cache the value under its own
path; return `Ok(true)` when both succeed. -/
def CachedDataStorer.create (c : CachedDataStorer) (value : Data) :
    Except DataStorerError Bool × List CallEvent :=
  match c.storer.create value with
  | .error e => (.error e, [.storerCreate value])
  | .ok _ =>
    match c.cacher.set value.pathString value with
    | .error e =>
      (.error (.CacheError e),
        [.storerCreate value, .cacherSet value.pathString value])
    | .ok _ =>
      (.ok true, [.storerCreate value, .cacherSet value.pathString value])

/-! ## Backing-store adapters (src/storage/mongodb.rs, src/storage/redact.rs) -/

/-- The MongoDB driver, as an oracle: `find_one` with a path filter
returns a transport/driver error, or the matching document if any. -/
structure MongoBackend where
  findOne : String → Except String (Option Data)

/-- `MongoDataStorer::get` (src/storage/mongodb.rs lines 39–59): runs
`find_one` filtering on the raw `path` argument as given; `Ok(Some(d))`
is the result, `Ok(None)` becomes `NotFound`, a driver error becomes
`InternalError`. -/
def MongoDataStorer.get (db : MongoBackend) (path : String) :
    Except DataStorerError Data :=
  match db.findOne path with
  | .ok (some data) => .ok data
  | .ok none => .error (.StorageError .NotFound)
  | .error e => .error (.StorageError (.InternalError e))

/-- A MongoDB backend holding a fixed collection of documents and never
failing at the transport level: `find_one` returns the first stored
document whose serialized `path` field equals the filter string. -/
def recordsBackend (records : List Data) : MongoBackend :=
  ⟨fun path => .ok (records.find? (fun d => d.pathString == path))⟩

/-- The HTTP client used by the redact adapter, as an oracle: a GET on a
URL either fails at the transport level (outer error) or yields a
response whose body parses as `Data` or fails to parse (inner error). -/
structure RedactBackend where
  httpGet : String → Except String (Except String Data)

/-- `RedactDataStorer::get` (src/storage/redact.rs lines 22–38): GETs
`{url}/data/{path}`; a transport error and a body-parse error both
become `StorageError::InternalError`; there is no branch producing
`NotFound`. -/
def RedactDataStorer.get (b : RedactBackend) (url path : String) :
    Except DataStorerError Data :=
  match b.httpGet (url ++ "/data/" ++ path) with
  | .ok (.ok d) => .ok d
  | .ok (.error e) => .error (.StorageError (.InternalError e))
  | .error e => .error (.StorageError (.InternalError e))

/-! ## Concrete fixtures (used to instantiate the theorems) -/

/-- A sample unencrypted value. -/
def sampleValue : DataValue := .Unencrypted (.Bool true)

/-- A sample `Data` at the (already normalized) path `.p.`. -/
def sampleData : Data := Data.new ".p." sampleValue none

/-- A cacher whose operations all succeed and that reports every key as
present. -/
def hitCacher : DataCacher where
  set := fun _ _ => .ok ()
  get := fun _ => .ok sampleData
  existsKey := fun _ => .ok true
  expire := fun _ _ => .ok true
  get_default_key_expiration_seconds := 60

/-- A cacher whose operations all succeed and that reports every key as
absent. -/
def missCacher : DataCacher where
  set := fun _ _ => .ok ()
  get := fun _ => .ok sampleData
  existsKey := fun _ => .ok false
  expire := fun _ _ => .ok true
  get_default_key_expiration_seconds := 60

/-- A storer whose operations all succeed. -/
def okStorer : DataStorerOracle where
  get := fun _ => .ok sampleData
  create := fun _ => .ok true

/-- A storer that fails every operation with `NotFound` in the storage
branch. -/
def notFoundStorer : DataStorerOracle where
  get := fun _ => .error (.StorageError .NotFound)
  create := fun _ => .error (.StorageError .NotFound)

/-- A cached storer whose cache reports a hit and whose collaborators
all succeed. -/
def hitStore : CachedDataStorer := ⟨okStorer, hitCacher⟩

/-- A cached storer whose cache reports a miss and whose collaborators
all succeed. -/
def missStore : CachedDataStorer := ⟨okStorer, missCacher⟩

/-- A cached storer whose cache reports a miss and whose backing storer
fails with `NotFound`. -/
def nfStore : CachedDataStorer := ⟨notFoundStorer, missCacher⟩

/-- The UTF-8 bytes of the payload `"hello"`. -/
def helloBytes : List Nat := [104, 101, 108, 108, 111]

/-- The encrypted value of claim C9: key `k1`, type `String`, payload
bytes of `"hello"`. -/
def helloEncrypted : EncryptedDataValue := ⟨helloBytes, .String, "k1"⟩

end RedactData

namespace RedactData

/-! ## String helper lemmas -/

/-- The character list of an explicitly built string. -/
@[simp] theorem data_mk (l : List Char) : (String.mk l).data = l := rfl

/-- The character list of the empty string literal. -/
@[simp] theorem data_empty_str : ("" : String).data = [] := rfl

/-- The character list of the one-period string literal. -/
@[simp] theorem data_dot_str : ("." : String).data = ['.'] := rfl

/-! ## Path normalization lemmas -/

/-- `validate_path` maps the empty string to ".". -/
theorem validate_path_nil : DataPath.validate_path ⟨[]⟩ = ⟨['.']⟩ := by
  decide

/-- `validate_path` on a single-character string: "." is kept, any other
character `c` becomes ".c.". -/
theorem validate_path_single (c : Char) :
    DataPath.validate_path ⟨[c]⟩ =
      if c = '.' then ⟨[c]⟩ else ⟨['.', c, '.']⟩ := by
  unfold DataPath.validate_path
  rw [if_neg (by simp [String.isEmpty_iff, String.ext_iff])]
  simp only [data_mk, List.head?_cons, List.tail_cons, List.getLast?_nil]
  split
  · rfl
  · exact String.ext (by simp)

/-- `validate_path` on a string of length at least two, characterized by
its first character `c1` and the last character `lc` of the remainder. -/
theorem validate_path_cons (c1 : Char) (l : List Char) (lc : Char)
    (h : l.getLast? = some lc) :
    DataPath.validate_path ⟨c1 :: l⟩ =
      if c1 ≠ '.' ∧ lc ≠ '.' then ⟨'.' :: c1 :: (l ++ ['.'])⟩
      else if c1 = '.' ∧ lc = '.' then ⟨c1 :: l⟩
      else if c1 ≠ '.' then ⟨'.' :: c1 :: l⟩
      else ⟨c1 :: (l ++ ['.'])⟩ := by
  unfold DataPath.validate_path
  rw [if_neg (by simp [String.isEmpty_iff, String.ext_iff])]
  simp only [data_mk, List.head?_cons, List.tail_cons, h]
  split_ifs <;> exact String.ext (by simp)

/-- `normalizeSpec` on a single-character string. -/
theorem normalizeSpec_single (c : Char) :
    normalizeSpec ⟨[c]⟩ =
      if c = '.' then ⟨['.']⟩ else ⟨['.', c, '.']⟩ := by
  unfold normalizeSpec
  rw [if_neg (by simp [String.ext_iff])]
  by_cases hc : c = '.'
  · subst hc
    rw [if_pos rfl, if_pos rfl]
  · rw [if_neg (by simp [String.ext_iff, hc]), if_pos (by simp), if_neg hc]
    exact String.ext (by simp)

/-- `normalizeSpec` on a string of length at least two. -/
theorem normalizeSpec_cons (c1 c2 : Char) (rest : List Char) (lc : Char)
    (h : (c2 :: rest).getLast? = some lc) :
    normalizeSpec ⟨c1 :: c2 :: rest⟩ =
      if c1 = '.' ∧ lc = '.' then ⟨c1 :: c2 :: rest⟩
      else if c1 ≠ '.' ∧ lc ≠ '.' then ⟨'.' :: c1 :: c2 :: (rest ++ ['.'])⟩
      else if c1 = '.' then ⟨c1 :: c2 :: (rest ++ ['.'])⟩
      else ⟨'.' :: c1 :: c2 :: rest⟩ := by
  unfold normalizeSpec
  rw [if_neg (by simp [String.ext_iff]), if_neg (by simp [String.ext_iff]),
    if_neg (by simp)]
  simp only [data_mk, List.head?_cons, List.getLast?_cons_cons, h, ne_eq,
    Option.some.injEq]
  split_ifs <;> rfl

/-- The specification's normalization examples, checked against the
embedded `validate_path`. -/
theorem validate_path_examples :
    DataPath.validate_path "" = "." ∧ DataPath.validate_path "." = "." ∧
    DataPath.validate_path ".." = ".." ∧ DataPath.validate_path "my" = ".my." ∧
    DataPath.validate_path "my.path" = ".my.path." ∧
    DataPath.validate_path ".my.path" = ".my.path." ∧
    DataPath.validate_path "my.path." = ".my.path." ∧
    DataPath.validate_path ".my.path." = ".my.path." := by
  decide

/-- C4: for every input string, `DataPath` normalization returns exactly
"." for the empty input and for ".", ".c." for any other single
character `c`, and for inputs of length at least two keeps the input
when both ends are periods, wraps it when neither end is, appends a
period when only the first character is one and prepends a period when
only the last is — strings of only periods or with consecutive periods
included (`normalizeSpec` is that case description, verbatim). -/
theorem validate_path_matches_spec_cases (s : String) :
    DataPath.validate_path s = normalizeSpec s := by
  obtain ⟨l⟩ := s
  match l with
  | [] => decide
  | [c] =>
    rw [validate_path_single, normalizeSpec_single]
    by_cases hc : c = '.' <;> simp [hc]
  | c1 :: c2 :: rest =>
    have hlc : (c2 :: rest).getLast? = some ((c2 :: rest).getLast (by simp)) :=
      List.getLast?_eq_getLast _ (by simp)
    rw [validate_path_cons c1 (c2 :: rest) _ hlc, normalizeSpec_cons c1 c2 rest _ hlc]
    by_cases h1 : c1 = '.' <;>
      by_cases h2 : (c2 :: rest).getLast (by simp) = '.' <;>
      simp [h1, h2]

/-- C5: path normalization is idempotent — normalizing the output of
`validate_path` returns it unchanged, for every input string. -/
theorem validate_path_idempotent (s : String) :
    DataPath.validate_path (DataPath.validate_path s) = DataPath.validate_path s := by
  obtain ⟨l⟩ := s
  match l with
  | [] => decide
  | [c] =>
    rw [validate_path_single]
    by_cases hc : c = '.'
    · rw [if_pos hc, validate_path_single, if_pos hc]
    · rw [if_neg hc, validate_path_cons '.' [c, '.'] '.' (by simp)]
      simp
  | c1 :: c2 :: rest =>
    have hlc : (c2 :: rest).getLast? = some ((c2 :: rest).getLast (by simp)) :=
      List.getLast?_eq_getLast _ (by simp)
    set lc := (c2 :: rest).getLast (by simp) with hlcdef
    rw [validate_path_cons c1 (c2 :: rest) lc hlc]
    by_cases h1 : c1 = '.' <;> by_cases h2 : lc = '.'
    · rw [if_neg (by tauto), if_pos ⟨h1, h2⟩,
        validate_path_cons c1 (c2 :: rest) lc hlc,
        if_neg (by tauto), if_pos ⟨h1, h2⟩]
    · rw [if_neg (by tauto), if_neg (by tauto), if_neg (by tauto),
        validate_path_cons c1 ((c2 :: rest) ++ ['.']) '.' (List.getLast?_concat _),
        if_neg (by simp), if_pos ⟨h1, rfl⟩]
    · rw [if_neg (by tauto), if_neg (by tauto), if_pos h1,
        validate_path_cons '.' (c1 :: c2 :: rest) lc (by simp [hlc]),
        if_neg (by tauto), if_pos ⟨rfl, h2⟩]
    · rw [if_pos ⟨h1, h2⟩,
        validate_path_cons '.' (c1 :: ((c2 :: rest) ++ ['.'])) '.'
          (by rw [← List.cons_append]; exact List.getLast?_concat _),
        if_neg (by simp), if_pos ⟨rfl, rfl⟩]

/-! ## Cache-aside protocol lemmas -/

/-- Evaluation of `CachedDataStorer::get` once the cache reports the key
present: the remaining behavior is decided by `expire` and the cache
`get`. -/
theorem cachedGet_hit_eq (c : CachedDataStorer) (path : String)
    (h : c.cacher.existsKey path = .ok true) :
    CachedDataStorer.get c path =
      (match c.cacher.expire path c.cacher.get_default_key_expiration_seconds with
        | .error e =>
          (.error (.CacheError e),
            [.cacherExists path,
              .cacherExpire path c.cacher.get_default_key_expiration_seconds])
        | .ok _ =>
          match c.cacher.get path with
          | .error e =>
            (.error (.CacheError e),
              [.cacherExists path,
                .cacherExpire path c.cacher.get_default_key_expiration_seconds,
                .cacherGet path])
          | .ok d =>
            (.ok d,
              [.cacherExists path,
                .cacherExpire path c.cacher.get_default_key_expiration_seconds,
                .cacherGet path])) := by
  unfold CachedDataStorer.get
  rw [h]
  rfl

/-- Evaluation of `CachedDataStorer::get` once the cache reports the key
absent: the remaining behavior is decided by the backing storer and the
cache `set`. -/
theorem cachedGet_miss_eq (c : CachedDataStorer) (path : String)
    (h : c.cacher.existsKey path = .ok false) :
    CachedDataStorer.get c path =
      (match c.storer.get path with
        | .error e => (.error e, [.cacherExists path, .storerGet path])
        | .ok res =>
          match c.cacher.set path res with
          | .error e =>
            (.error (.CacheError e),
              [.cacherExists path, .storerGet path, .cacherSet path res])
          | .ok _ =>
            (.ok res,
              [.cacherExists path, .storerGet path, .cacherSet path res])) := by
  unfold CachedDataStorer.get
  rw [h]
  rfl

/-- C1: on a cache hit (`exists` returns `true`), `CachedDataStorer.get`
calls `expire` exactly once, with the cacher's default expiration
seconds, never calls the backing storer's `get`, and returns the `Data`
produced by the cache `get`; a failure of the `expire` step or of the
subsequent cache read is returned as a cache-origin error and the
backing store is not consulted. -/
theorem cachedGet_hit_protocol (c : CachedDataStorer) (path : String)
    (h : c.cacher.existsKey path = .ok true) :
    ((CachedDataStorer.get c path).2.filter CallEvent.isCacherExpire =
      [.cacherExpire path c.cacher.get_default_key_expiration_seconds]) ∧
    ((CachedDataStorer.get c path).2.filter CallEvent.isStorerGet = []) ∧
    (∀ e, c.cacher.expire path c.cacher.get_default_key_expiration_seconds = .error e →
      (CachedDataStorer.get c path).1 = .error (.CacheError e)) ∧
    (∀ b, c.cacher.expire path c.cacher.get_default_key_expiration_seconds = .ok b →
      (∀ e, c.cacher.get path = .error e →
        (CachedDataStorer.get c path).1 = .error (.CacheError e)) ∧
      (∀ d, c.cacher.get path = .ok d →
        (CachedDataStorer.get c path).1 = .ok d)) := by
  rw [cachedGet_hit_eq c path h]
  cases hx : c.cacher.expire path c.cacher.get_default_key_expiration_seconds with
  | error e =>
    refine ⟨by simp [List.filter, CallEvent.isCacherExpire, CallEvent.isCacherExists],
      by simp [List.filter, CallEvent.isStorerGet, CallEvent.isCacherExpire,
        CallEvent.isCacherExists],
      fun e' he' => by simp_all, fun b hb => by simp_all⟩
  | ok b =>
    cases hg : c.cacher.get path with
    | error e =>
      refine ⟨by simp [List.filter, CallEvent.isCacherExpire, CallEvent.isCacherExists,
          CallEvent.isCacherGet],
        by simp [List.filter, CallEvent.isStorerGet, CallEvent.isCacherExpire,
          CallEvent.isCacherExists, CallEvent.isCacherGet],
        fun e' he' => by simp_all, fun b' hb' => ⟨fun e' he' => by simp_all,
          fun d hd => by simp_all⟩⟩
    | ok d =>
      refine ⟨by simp [List.filter, CallEvent.isCacherExpire, CallEvent.isCacherExists,
          CallEvent.isCacherGet],
        by simp [List.filter, CallEvent.isStorerGet, CallEvent.isCacherExpire,
          CallEvent.isCacherExists, CallEvent.isCacherGet],
        fun e' he' => by simp_all, fun b' hb' => ⟨fun e' he' => by simp_all,
          fun d' hd' => by simp_all⟩⟩

/-- C1 witness: a concrete hit-reporting cacher exercises the theorem. -/
theorem cachedGet_hit_protocol_witness :
    hitStore.cacher.existsKey ".p." = .ok true ∧
    ((CachedDataStorer.get hitStore ".p.").2.filter CallEvent.isStorerGet = []) :=
  ⟨rfl, (cachedGet_hit_protocol hitStore ".p." rfl).2.1⟩

/-- C2: on a cache miss (`exists` returns `false`),
`CachedDataStorer.get` calls the backing storer's `get` exactly once and
neither `expire` nor the cache `get`; when the fetch succeeds it calls
the cache `set` exactly once with the fetched `Data` before returning it
(a `set` failure is surfaced as the result); when the fetch fails the
storer's error is returned and the cache is not written. -/
theorem cachedGet_miss_protocol (c : CachedDataStorer) (path : String)
    (h : c.cacher.existsKey path = .ok false) :
    ((CachedDataStorer.get c path).2.filter CallEvent.isStorerGet =
      [.storerGet path]) ∧
    ((CachedDataStorer.get c path).2.filter CallEvent.isCacherExpire = []) ∧
    ((CachedDataStorer.get c path).2.filter CallEvent.isCacherGet = []) ∧
    (∀ e, c.storer.get path = .error e →
      (CachedDataStorer.get c path).1 = .error e ∧
      (CachedDataStorer.get c path).2.filter CallEvent.isCacherSet = []) ∧
    (∀ d, c.storer.get path = .ok d →
      ((CachedDataStorer.get c path).2.filter CallEvent.isCacherSet =
        [.cacherSet path d]) ∧
      (∀ e, c.cacher.set path d = .error e →
        (CachedDataStorer.get c path).1 = .error (.CacheError e)) ∧
      (c.cacher.set path d = .ok () →
        (CachedDataStorer.get c path).1 = .ok d)) := by
  rw [cachedGet_miss_eq c path h]
  cases hs : c.storer.get path with
  | error e =>
    refine ⟨by simp [List.filter, CallEvent.isStorerGet, CallEvent.isCacherExists],
      by simp [List.filter, CallEvent.isCacherExpire, CallEvent.isStorerGet,
        CallEvent.isCacherExists],
      by simp [List.filter, CallEvent.isCacherGet, CallEvent.isStorerGet,
        CallEvent.isCacherExists],
      fun e' he' => ⟨by simp_all,
        by simp [List.filter, CallEvent.isCacherSet, CallEvent.isStorerGet,
          CallEvent.isCacherExists]⟩,
      fun d hd => by simp_all⟩
  | ok d =>
    cases hset : c.cacher.set path d with
    | error e =>
      refine ⟨by simp [hset, List.filter, CallEvent.isStorerGet,
          CallEvent.isCacherExists, CallEvent.isCacherSet],
        by simp [hset, List.filter, CallEvent.isCacherExpire, CallEvent.isStorerGet,
          CallEvent.isCacherExists, CallEvent.isCacherSet],
        by simp [hset, List.filter, CallEvent.isCacherGet, CallEvent.isStorerGet,
          CallEvent.isCacherExists, CallEvent.isCacherSet],
        fun e' he' => by simp_all,
        fun d' hd' => ?_⟩
      obtain rfl : d = d' := by simpa using hd'
      exact ⟨by simp [hset, List.filter, CallEvent.isCacherSet, CallEvent.isStorerGet,
          CallEvent.isCacherExists],
        fun e' he' => by simp_all, fun hok => by simp_all⟩
    | ok u =>
      refine ⟨by simp [hset, List.filter, CallEvent.isStorerGet,
          CallEvent.isCacherExists, CallEvent.isCacherSet],
        by simp [hset, List.filter, CallEvent.isCacherExpire, CallEvent.isStorerGet,
          CallEvent.isCacherExists, CallEvent.isCacherSet],
        by simp [hset, List.filter, CallEvent.isCacherGet, CallEvent.isStorerGet,
          CallEvent.isCacherExists, CallEvent.isCacherSet],
        fun e' he' => by simp_all,
        fun d' hd' => ?_⟩
      obtain rfl : d = d' := by simpa using hd'
      exact ⟨by simp [hset, List.filter, CallEvent.isCacherSet, CallEvent.isStorerGet,
          CallEvent.isCacherExists],
        fun e' he' => by simp_all, fun hok => by simp_all⟩

/-- C2 witness: a concrete miss-reporting cacher exercises the theorem. -/
theorem cachedGet_miss_protocol_witness :
    missStore.cacher.existsKey ".p." = .ok false ∧
    ((CachedDataStorer.get missStore ".p.").2.filter CallEvent.isStorerGet =
      [.storerGet ".p."]) :=
  ⟨rfl, (cachedGet_miss_protocol missStore ".p." rfl).1⟩

/-- C3: `CachedDataStorer.create` calls the backing storer's `create`
before the cache `set` (the trace on success is exactly store-create
followed by cache-set); if the store write fails, `set` is never called
and the store's error is returned; if the store write succeeds and the
cache `set` fails, that cache failure is the result. -/
theorem cachedCreate_protocol (c : CachedDataStorer) (value : Data) :
    (∀ e, c.storer.create value = .error e →
      (CachedDataStorer.create c value).2 = [.storerCreate value] ∧
      (CachedDataStorer.create c value).1 = .error e) ∧
    (∀ b, c.storer.create value = .ok b →
      (CachedDataStorer.create c value).2 =
        [.storerCreate value, .cacherSet value.pathString value] ∧
      (∀ e, c.cacher.set value.pathString value = .error e →
        (CachedDataStorer.create c value).1 = .error (.CacheError e)) ∧
      (c.cacher.set value.pathString value = .ok () →
        (CachedDataStorer.create c value).1 = .ok true)) := by
  unfold CachedDataStorer.create
  cases hc : c.storer.create value with
  | error e =>
    exact ⟨fun e' he' => by simp_all, fun b hb => by simp_all⟩
  | ok b =>
    cases hset : c.cacher.set value.pathString value with
    | error e =>
      exact ⟨fun e' he' => by simp_all,
        fun b' hb' => ⟨by simp, fun e' he' => by simp_all, fun hok => by simp_all⟩⟩
    | ok u =>
      exact ⟨fun e' he' => by simp_all,
        fun b' hb' => ⟨by simp, fun e' he' => by simp_all, fun hok => by simp_all⟩⟩

/-- C3 witness: concrete always-succeeding collaborators exercise the
theorem. -/
theorem cachedCreate_protocol_witness :
    hitStore.storer.create sampleData = .ok true ∧
    (CachedDataStorer.create hitStore sampleData).2 =
      [.storerCreate sampleData, .cacherSet sampleData.pathString sampleData] :=
  ⟨rfl, ((cachedCreate_protocol hitStore sampleData).2 true rfl).1⟩

/-- C6: every error returned by `CachedDataStorer.get` or `create` is
tagged with its origin: a cache-branch error always reports the exact
error some cacher operation (`exists`, `expire`, `get`, `set`) produced,
and, provided the backing storer reports its failures in the storage
branch (as both adapters in the library do), a storer failure is
returned unchanged in the storage branch. -/
theorem cachedDataStorer_error_provenance (c : CachedDataStorer)
    (path : String) (value : Data)
    (hs : ∀ e, c.storer.get path = .error e → ∃ se, e = .StorageError se)
    (hc : ∀ e, c.storer.create value = .error e → ∃ se, e = .StorageError se) :
    (∀ e, (CachedDataStorer.get c path).1 = .error e →
      (∃ ce, e = .CacheError ce ∧
        (c.cacher.existsKey path = .error ce ∨
         c.cacher.expire path c.cacher.get_default_key_expiration_seconds =
           .error ce ∨
         c.cacher.get path = .error ce ∨
         ∃ d, c.storer.get path = .ok d ∧ c.cacher.set path d = .error ce)) ∨
      (∃ se, e = .StorageError se ∧
        c.storer.get path = .error (.StorageError se))) ∧
    (∀ e, (CachedDataStorer.create c value).1 = .error e →
      (∃ ce, e = .CacheError ce ∧ ∃ b, c.storer.create value = .ok b ∧
        c.cacher.set value.pathString value = .error ce) ∨
      (∃ se, e = .StorageError se ∧
        c.storer.create value = .error (.StorageError se))) := by
  constructor
  · intro e he
    cases hex : c.cacher.existsKey path with
    | error ce =>
      rw [CachedDataStorer.get] at he
      rw [hex] at he
      exact .inl ⟨ce, by simpa using he.symm, .inl rfl⟩
    | ok hit =>
      cases hit with
      | true =>
        rw [cachedGet_hit_eq c path hex] at he
        cases hx : c.cacher.expire path c.cacher.get_default_key_expiration_seconds with
        | error ce =>
          rw [hx] at he
          exact .inl ⟨ce, by simpa using he.symm, .inr (.inl rfl)⟩
        | ok b =>
          rw [hx] at he
          cases hg : c.cacher.get path with
          | error ce =>
            rw [hg] at he
            exact .inl ⟨ce, by simpa using he.symm, .inr (.inr (.inl rfl))⟩
          | ok d => rw [hg] at he; simp at he
      | false =>
        rw [cachedGet_miss_eq c path hex] at he
        cases hsg : c.storer.get path with
        | error e' =>
          simp only [hsg] at he
          obtain rfl : e' = e := by simpa using he
          obtain ⟨se, rfl⟩ := hs e' hsg
          exact .inr ⟨se, rfl, rfl⟩
        | ok d =>
          simp only [hsg] at he
          cases hset : c.cacher.set path d with
          | error ce =>
            simp only [hset] at he
            exact .inl ⟨ce, by simpa using he.symm, .inr (.inr (.inr ⟨d, rfl, hset⟩))⟩
          | ok u => simp only [hset] at he; simp at he
  · intro e he
    rw [CachedDataStorer.create] at he
    cases hcr : c.storer.create value with
    | error e' =>
      rw [hcr] at he
      obtain rfl : e' = e := by simpa using he
      obtain ⟨se, rfl⟩ := hc e' hcr
      exact .inr ⟨se, rfl, rfl⟩
    | ok b =>
      rw [hcr] at he
      cases hset : c.cacher.set value.pathString value with
      | error ce =>
        rw [hset] at he
        exact .inl ⟨ce, by simpa using he.symm, b, rfl, rfl⟩
      | ok u => rw [hset] at he; simp at he

/-- C6 witness: a `NotFound`-failing storer behind a miss-reporting
cacher exercises the theorem. -/
theorem cachedDataStorer_error_provenance_witness :
    nfStore.storer.get ".p." = .error (.StorageError .NotFound) ∧
    ((∃ ce, (DataStorerError.StorageError .NotFound) = .CacheError ce ∧
        (nfStore.cacher.existsKey ".p." = .error ce ∨
         nfStore.cacher.expire ".p."
           nfStore.cacher.get_default_key_expiration_seconds = .error ce ∨
         nfStore.cacher.get ".p." = .error ce ∨
         ∃ d, nfStore.storer.get ".p." = .ok d ∧
           nfStore.cacher.set ".p." d = .error ce)) ∨
      (∃ se, (DataStorerError.StorageError .NotFound) = .StorageError se ∧
        nfStore.storer.get ".p." = .error (.StorageError se))) :=
  ⟨rfl,
    (cachedDataStorer_error_provenance nfStore ".p." sampleData
      (fun e he => ⟨.NotFound, by simpa [nfStore, notFoundStorer] using he.symm⟩)
      (fun e he => ⟨.NotFound, by simpa [nfStore, notFoundStorer] using he.symm⟩)).1
      (.StorageError .NotFound) rfl⟩

/-! ## Adapter error behavior (C7) -/

/-- C7 counterexample: `MongoDataStorer::get` filters on the raw `path`
argument, not its normalization — with one record stored at the
normalized path `.my.path.`, a record does exist at the normalized path
of `"my.path"`, yet `get "my.path"` fails with `NotFound`; moreover
`RedactDataStorer::get` reports absence (here an unparsable not-found
body) as `InternalError`, never as `NotFound`. -/
theorem storer_get_notfound_counterexample :
    ([Data.new "my.path" sampleValue none].any
      (fun d => d.pathString == DataPath.validate_path "my.path") = true) ∧
    MongoDataStorer.get (recordsBackend [Data.new "my.path" sampleValue none])
      "my.path" = .error (.StorageError .NotFound) ∧
    RedactDataStorer.get ⟨fun _ => .ok (.error "404 body is not Data")⟩
      "http://server" "my.path"
      = .error (.StorageError (.InternalError "404 body is not Data")) :=
  ⟨by decide, rfl, rfl⟩

/-- C7 (amended): `MongoDataStorer::get` fails with `NotFound` exactly
when the backend has no document whose stored path equals the raw
argument string (no normalization is applied to the argument), and fails
with `InternalError` on a driver failure; `RedactDataStorer::get` never
fails with `NotFound` — every failure, absence included, is an
`InternalError`. -/
theorem storer_get_error_taxonomy (db : MongoBackend) (rb : RedactBackend)
    (path url rpath : String) :
    (MongoDataStorer.get db path = .error (.StorageError .NotFound) ↔
      db.findOne path = .ok none) ∧
    (∀ e, db.findOne path = .error e →
      MongoDataStorer.get db path = .error (.StorageError (.InternalError e))) ∧
    (RedactDataStorer.get rb url rpath ≠ .error (.StorageError .NotFound)) ∧
    (∀ e, RedactDataStorer.get rb url rpath = .error e →
      ∃ s, e = .StorageError (.InternalError s)) := by
  refine ⟨?_, ?_, ?_, ?_⟩
  · cases h : db.findOne path with
    | ok o => cases o <;> simp [MongoDataStorer.get, h]
    | error e => simp [MongoDataStorer.get, h]
  · intro e he
    simp [MongoDataStorer.get, he]
  · cases h : rb.httpGet (url ++ "/data/" ++ rpath) with
    | ok r => cases r <;> simp [RedactDataStorer.get, h]
    | error e => simp [RedactDataStorer.get, h]
  · intro e he
    rw [RedactDataStorer.get] at he
    cases h : rb.httpGet (url ++ "/data/" ++ rpath) with
    | ok r =>
      cases r with
      | ok d => rw [h] at he; simp at he
      | error s => rw [h] at he; exact ⟨s, by simpa using he.symm⟩
    | error s => rw [h] at he; exact ⟨s, by simpa using he.symm⟩

/-- C7 witness: an empty Mongo collection and an error-body HTTP backend
exercise the amended theorem. -/
theorem storer_get_error_taxonomy_witness :
    (MongoDataStorer.get (recordsBackend []) ".p."
        = .error (.StorageError .NotFound) ↔
      (recordsBackend []).findOne ".p." = .ok none) ∧
    RedactDataStorer.get ⟨fun _ => .ok (.error "boom")⟩ "http://server" ".p."
      ≠ .error (.StorageError .NotFound) :=
  ⟨(storer_get_error_taxonomy (recordsBackend [])
      ⟨fun _ => .ok (.error "boom")⟩ ".p." "http://server" ".p.").1,
   (storer_get_error_taxonomy (recordsBackend [])
      ⟨fun _ => .ok (.error "boom")⟩ ".p." "http://server" ".p.").2.2.1⟩

/-! ## Data value collection shape (C8) -/

/-- C8 counterexample: the derived `Default` instance of `Data` — a
publicly obtainable value, and the deserialization default for a missing
`value` field — carries an empty value collection, so not every `Data`
holds at least one `DataValue`. -/
theorem data_default_value_empty :
    ¬ (1 ≤ Data.defaultData.value.vals.length) := by
  decide

/-- C8 (amended): every `Data` built through `Data::new` carries exactly
one `DataValue` (hence a non-empty collection); the non-emptiness
invariant does not extend to the `Default` instance or to
deserialization with an absent `value` field, which produce the empty
collection. -/
theorem data_new_value_singleton (path : String) (value : DataValue)
    (encryptedby : Option (List String)) :
    (Data.new path value encryptedby).value.vals.length = 1 := rfl

/-! ## Encrypted value rendering (C9, C10) -/

/-- At equal fuel, the decoder driver succeeds exactly when the
validator driver accepts. -/
theorem utf8Aux_isSome_eq (fuel : Nat) :
    ∀ l, (utf8DecodeAux fuel l).isSome = validUtf8Aux fuel l := by
  induction fuel with
  | zero => intro l; cases l <;> rfl
  | succ n ih =>
    intro l
    cases l with
    | nil => rfl
    | cons b1 rest =>
      cases h : utf8StepCp b1 rest with
      | none => simp [utf8DecodeAux, validUtf8Aux, h]
      | some cp => simp [utf8DecodeAux, validUtf8Aux, h, ih]

/-- The decoder succeeds exactly when the validator accepts. -/
theorem utf8Decode_isSome_eq (l : List Nat) :
    (utf8Decode l).isSome = validUtf8 l :=
  utf8Aux_isSome_eq l.length l

/-- Boundary behavior of the embedded decoder, matching Rust's
`String::from_utf8`: ASCII, the 2-, 3- and 4-byte minima and maxima,
overlong-form rejections, surrogate rejection, and the U+10FFFF
ceiling. -/
theorem utf8Decode_boundary_examples :
    utf8Decode [104, 101, 108, 108, 111] = some ['h', 'e', 'l', 'l', 'o'] ∧
    utf8Decode [0xC2, 0x80] = some [⟨0x80, by decide⟩] ∧
    utf8Decode [0xC1, 0xBF] = none ∧
    utf8Decode [0xE0, 0xA0, 0x80] = some [⟨0x800, by decide⟩] ∧
    utf8Decode [0xE0, 0x9F, 0xBF] = none ∧
    utf8Decode [0xED, 0x9F, 0xBF] = some [⟨0xD7FF, by decide⟩] ∧
    utf8Decode [0xED, 0xA0, 0x80] = none ∧
    utf8Decode [0xF0, 0x90, 0x80, 0x80] = some [⟨0x10000, by decide⟩] ∧
    utf8Decode [0xF4, 0x8F, 0xBF, 0xBF] = some [⟨0x10FFFF, by decide⟩] ∧
    utf8Decode [0xF4, 0x90, 0x80, 0x80] = none ∧
    utf8Decode [0xFF] = none ∧
    utf8Decode [0xC3] = none := by
  decide

/-- C9: rendering an `EncryptedDataValue` whose payload bytes are valid
UTF-8 yields exactly
`encrypted(key: "<keyname>", type: "<type>", value: "<payload-as-text>")`
with the type in lowercase; in particular, for key `k1`, type `String`
and payload bytes of `"hello"` the rendering is exactly
`encrypted(key: "k1", type: "string", value: "hello")`. -/
theorem encrypted_display_format :
    (∀ (e : EncryptedDataValue) (cs : List Char), utf8Decode e.value = some cs →
      e.display = some ("encrypted(key: \"" ++ e.keyname ++ "\", type: \""
        ++ e.datatype.display ++ "\", value: \"" ++ String.mk cs ++ "\")")) ∧
    helloEncrypted.display =
      some "encrypted(key: \"k1\", type: \"string\", value: \"hello\")" := by
  refine ⟨fun e cs h => ?_, by decide⟩
  simp [EncryptedDataValue.display, h]

/-- C9 witness: the payload bytes of `"hello"` decode and render through
the theorem. -/
theorem encrypted_display_format_witness :
    utf8Decode helloEncrypted.value = some ['h', 'e', 'l', 'l', 'o'] ∧
    helloEncrypted.display =
      some ("encrypted(key: \"" ++ helloEncrypted.keyname ++ "\", type: \""
        ++ helloEncrypted.datatype.display ++ "\", value: \""
        ++ String.mk ['h', 'e', 'l', 'l', 'o'] ++ "\")") :=
  ⟨by decide,
    encrypted_display_format.1 helloEncrypted ['h', 'e', 'l', 'l', 'o'] (by decide)⟩

/-- C10: rendering an `EncryptedDataValue` fails exactly when its
payload bytes are not valid UTF-8 — no lossy or replacement-character
rendering exists, the only non-`some` outcome is the formatting
error `none`. -/
theorem encrypted_display_fails_iff_invalid (e : EncryptedDataValue) :
    e.display = none ↔ validUtf8 e.value = false := by
  rw [EncryptedDataValue.display, ← utf8Decode_isSome_eq]
  cases utf8Decode e.value <;> simp

end RedactData
